import Mathlib

/-!
# Verification of the LandProject amortization engine

A shallow embedding of `src/lib/calculations.ts` over exact rational
arithmetic.  JavaScript numbers are modelled by `ℚ`; `Math.round` is
round-half-toward-positive-infinity, i.e. `⌊x + 1/2⌋`; month counts are
natural numbers; calendar dates are modelled as integer month offsets
(`addMonths` adds the offset).
-/

namespace LandProject

/-- JavaScript `Math.round`: rounds half toward positive infinity. -/
def jsRound (x : ℚ) : ℤ := ⌊x + 1/2⌋

/-- `Math.round(x * 100) / 100`: round to 2 decimal places. -/
def round2 (x : ℚ) : ℚ := (jsRound (x * 100) : ℚ) / 100

/-- `date-fns` `addMonths`, with dates modelled as month offsets. -/
def addMonths (d : ℤ) (n : ℕ) : ℤ := d + n

/-- The `AmortizationEntry` record of `src/types/index.ts`. -/
structure AmortizationEntry where
  payment_number : ℕ
  due_date : ℤ
  amount_due : ℚ
  principal : ℚ
  interest : ℚ
  balance : ℚ
deriving DecidableEq, Repr

/-- `calculateMonthlyPayment` from `calculations.ts` (lines 8-21).
`months ≤ 0` in the source becomes `months = 0` for `months : ℕ`. -/
def calculateMonthlyPayment (principal annualRate : ℚ) (months : ℕ) : ℚ :=
  if principal ≤ 0 ∨ months = 0 then 0
  else if annualRate = 0 then principal / months
  else
    let monthlyRate := annualRate / 100 / 12
    let numerator := monthlyRate * (1 + monthlyRate) ^ months
    let denominator := (1 + monthlyRate) ^ months - 1
    principal * (numerator / denominator)

/-- `calculateTotalPayment` from `calculations.ts` (lines 26-32). -/
def calculateTotalPayment (monthlyPayment : ℚ) (months : ℕ) (downPayment : ℚ) : ℚ :=
  monthlyPayment * months + downPayment

/-- `calculateFinanceAmount` from `calculations.ts` (lines 37-42). -/
def calculateFinanceAmount (salePrice downPayment : ℚ) : ℚ :=
  max 0 (salePrice - downPayment)

/-- Line 60 of the loop body: `interest = annualRate === 0 ? 0 : balance * monthlyRate`. -/
def stepInterest (annualRate monthlyRate balance : ℚ) : ℚ :=
  if annualRate = 0 then 0 else balance * monthlyRate

/-- Line 61 of the loop body: `principal = monthlyPayment - interest`. -/
def stepPrincipal (annualRate monthlyPayment monthlyRate balance : ℚ) : ℚ :=
  monthlyPayment - stepInterest annualRate monthlyRate balance

/-- Line 62 of the loop body: `balance = Math.max(0, balance - principal)`. -/
def stepBalance (annualRate monthlyPayment monthlyRate balance : ℚ) : ℚ :=
  max 0 (balance - stepPrincipal annualRate monthlyPayment monthlyRate balance)

/-- The loop body of `generateAmortizationSchedule` (lines 59-76), with the
loop embedded as structural recursion on the number `rem` of remaining
iterations; `i` is the source's loop counter, `balance` the running balance.
The caller maintains `i + rem = months + 1`. -/
def scheduleAux (annualRate monthlyPayment monthlyRate : ℚ) (months : ℕ)
    (startDate : ℤ) : ℕ → ℕ → ℚ → List AmortizationEntry
  | 0, _, _ => []
  | rem + 1, i, balance =>
    let interest := stepInterest annualRate monthlyRate balance
    let principal := stepPrincipal annualRate monthlyPayment monthlyRate balance
    let balance2 := stepBalance annualRate monthlyPayment monthlyRate balance
    let adjustedPrincipal := if i = months then balance2 + principal else principal
    let adjustedPayment := if i = months then adjustedPrincipal + interest else monthlyPayment
    { payment_number := i
      due_date := addMonths startDate i
      amount_due := round2 adjustedPayment
      principal := round2 adjustedPrincipal
      interest := round2 interest
      balance := if i = months then 0 else round2 balance2 } ::
      scheduleAux annualRate monthlyPayment monthlyRate months startDate rem (i + 1) balance2

/-- `generateAmortizationSchedule` from `calculations.ts` (lines 47-79). -/
def generateAmortizationSchedule (financeAmount annualRate : ℚ) (months : ℕ)
    (startDate : ℤ) : List AmortizationEntry :=
  scheduleAux annualRate (calculateMonthlyPayment financeAmount annualRate months)
    (annualRate / 100 / 12) months startDate months 1 financeAmount

/-- Analysis companion of `scheduleAux` recording the pre-rounding values of
each entry (same recursion, no `round2`). -/
def exactScheduleAux (annualRate monthlyPayment monthlyRate : ℚ) (months : ℕ)
    (startDate : ℤ) : ℕ → ℕ → ℚ → List AmortizationEntry
  | 0, _, _ => []
  | rem + 1, i, balance =>
    let interest := stepInterest annualRate monthlyRate balance
    let principal := stepPrincipal annualRate monthlyPayment monthlyRate balance
    let balance2 := stepBalance annualRate monthlyPayment monthlyRate balance
    let adjustedPrincipal := if i = months then balance2 + principal else principal
    let adjustedPayment := if i = months then adjustedPrincipal + interest else monthlyPayment
    { payment_number := i
      due_date := addMonths startDate i
      amount_due := adjustedPayment
      principal := adjustedPrincipal
      interest := interest
      balance := if i = months then 0 else balance2 } ::
      exactScheduleAux annualRate monthlyPayment monthlyRate months startDate rem (i + 1) balance2

/-- The schedule with pre-rounding entry values. -/
def exactSchedule (financeAmount annualRate : ℚ) (months : ℕ)
    (startDate : ℤ) : List AmortizationEntry :=
  exactScheduleAux annualRate (calculateMonthlyPayment financeAmount annualRate months)
    (annualRate / 100 / 12) months startDate months 1 financeAmount

/-- Rounding of the monetary fields of an entry, as the schedule generator
applies it. -/
def roundEntry (e : AmortizationEntry) : AmortizationEntry :=
  { e with
    amount_due := round2 e.amount_due
    principal := round2 e.principal
    interest := round2 e.interest
    balance := round2 e.balance }

/-- Invariant of the schedule loop: for the next `rem` iterations starting
from balance `b`, each month's principal portion is nonnegative and does not
exceed the running balance (hence the `max 0` clamp of line 62 never fires). -/
def steady (annualRate monthlyPayment monthlyRate : ℚ) : ℚ → ℕ → Prop
  | _, 0 => True
  | b, rem + 1 =>
    0 ≤ stepPrincipal annualRate monthlyPayment monthlyRate b ∧
    stepPrincipal annualRate monthlyPayment monthlyRate b ≤ b ∧
    steady annualRate monthlyPayment monthlyRate
      (b - stepPrincipal annualRate monthlyPayment monthlyRate b) rem

/-- The `SaleFormData` fields used by `calculateSaleDetails`. -/
structure SaleFormData where
  sale_price : ℚ
  down_payment : ℚ
  interest_rate : ℚ
  term_months : ℕ
deriving DecidableEq, Repr

/-- The record returned by `calculateSaleDetails`. -/
structure SaleDetails where
  finance_amount : ℚ
  monthly_payment : ℚ
  total_payment : ℚ
deriving DecidableEq, Repr

/-- `calculateSaleDetails` from `calculations.ts` (lines 84-102). -/
def calculateSaleDetails (formData : SaleFormData) : SaleDetails :=
  let financeAmount := calculateFinanceAmount formData.sale_price formData.down_payment
  let monthlyPayment := calculateMonthlyPayment financeAmount formData.interest_rate
    formData.term_months
  let totalPayment := calculateTotalPayment monthlyPayment formData.term_months
    formData.down_payment
  { finance_amount := round2 financeAmount
    monthly_payment := round2 monthlyPayment
    total_payment := round2 totalPayment }

/-- The loop of `calculateRemainingBalance` (lines 145-149): `k` iterations
starting from `balance`. -/
def remainingLoop (annualRate monthlyPayment monthlyRate : ℚ) : ℕ → ℚ → ℚ
  | 0, balance => balance
  | k + 1, balance =>
    remainingLoop annualRate monthlyPayment monthlyRate k
      (balance - stepPrincipal annualRate monthlyPayment monthlyRate balance)

/-- `calculateRemainingBalance` from `calculations.ts` (lines 133-152). -/
def calculateRemainingBalance (originalPrincipal annualRate : ℚ)
    (totalMonths paymentsMade : ℕ) : ℚ :=
  if totalMonths ≤ paymentsMade then 0
  else
    let monthlyPayment := calculateMonthlyPayment originalPrincipal annualRate totalMonths
    let monthlyRate := annualRate / 100 / 12
    max 0 (round2 (remainingLoop annualRate monthlyPayment monthlyRate paymentsMade
      originalPrincipal))

/-- `calculateTotalInterest` from `calculations.ts` (lines 157-162). -/
def calculateTotalInterest (totalPayment salePrice : ℚ) : ℚ :=
  max 0 (totalPayment - salePrice)

/-- The shape of the records consumed by `calculatePayoffAmount`: the
function's parameter type only has `status` and `principal`, but the call
sites pass full `Payment` rows that also carry `paid_amount`. -/
structure PaymentRecord where
  status : String
  principal : ℚ
  paid_amount : Option ℚ
deriving DecidableEq, Repr

/-- `calculatePayoffAmount` from `calculations.ts` (lines 167-175). -/
def calculatePayoffAmount (payments : List PaymentRecord) : ℚ :=
  let paidPrincipal := (payments.filter fun p => p.status == "paid").foldl
    (fun sum p => sum + p.principal) 0
  let totalPrincipal := payments.foldl (fun sum p => sum + p.principal) 0
  round2 (totalPrincipal - paidPrincipal)

/-! ## Basic lemmas about the rounding utility -/

theorem round2_zero : round2 0 = 0 := by
  norm_num [round2, jsRound]

theorem round2_mono {a b : ℚ} (h : a ≤ b) : round2 a ≤ round2 b := by
  unfold round2 jsRound
  have hfloor : (⌊a * 100 + 1 / 2⌋ : ℤ) ≤ ⌊b * 100 + 1 / 2⌋ :=
    Int.floor_le_floor (by linarith)
  have : ((⌊a * 100 + 1 / 2⌋ : ℤ) : ℚ) ≤ ((⌊b * 100 + 1 / 2⌋ : ℤ) : ℚ) :=
    Int.cast_le.mpr hfloor
  linarith

theorem round2_nonneg {a : ℚ} (h : 0 ≤ a) : 0 ≤ round2 a := by
  have := round2_mono h
  rwa [round2_zero] at this

/-! ## Structural lemmas about the schedule generator -/

theorem scheduleAux_length (r P mr : ℚ) (m : ℕ) (d : ℤ) :
    ∀ (rem i : ℕ) (b : ℚ), (scheduleAux r P mr m d rem i b).length = rem := by
  intro rem
  induction rem with
  | zero => intro i b; rfl
  | succ k ih => intro i b; simp [scheduleAux, ih]

theorem generateAmortizationSchedule_length (F r : ℚ) (m : ℕ) (d : ℤ) :
    (generateAmortizationSchedule F r m d).length = m :=
  scheduleAux_length r _ _ m d m 1 F

theorem foldl_add_principal (l : List PaymentRecord) (a : ℚ) :
    l.foldl (fun sum p => sum + p.principal) a = a + (l.map PaymentRecord.principal).sum := by
  induction l generalizing a with
  | nil => simp
  | cons p l ih => simp [List.foldl_cons, ih, add_assoc]

theorem calculateMonthlyPayment_of_nonpos {p : ℚ} (h : p ≤ 0) (r : ℚ) (m : ℕ) :
    calculateMonthlyPayment p r m = 0 := by
  unfold calculateMonthlyPayment
  rw [if_pos (Or.inl h)]

theorem scheduleAux_zero_balance (rate mr : ℚ) (m : ℕ) (d : ℤ) :
    ∀ rem i, ((scheduleAux rate 0 mr m d rem i 0).map fun e =>
      (e.amount_due, e.principal, e.interest, e.balance)) =
        List.replicate rem ((0 : ℚ), (0 : ℚ), (0 : ℚ), (0 : ℚ)) := by
  intro rem
  induction rem with
  | zero => intro i; rfl
  | succ k ih =>
    intro i
    simp [scheduleAux, List.replicate_succ, ih, round2_zero, stepInterest,
      stepPrincipal, stepBalance]

/-! ## Step lemmas -/

theorem stepInterest_zero (mr b : ℚ) : stepInterest 0 mr b = 0 := if_pos rfl

theorem stepInterest_of_ne {rate : ℚ} (h : rate ≠ 0) (mr b : ℚ) :
    stepInterest rate mr b = b * mr := if_neg h

theorem stepPrincipal_zero_rate (P mr b : ℚ) : stepPrincipal 0 P mr b = P := by
  simp [stepPrincipal, stepInterest_zero]

theorem scheduleAux_succ (rate P mr : ℚ) (m : ℕ) (d : ℤ) (rem i : ℕ) (b : ℚ) :
    scheduleAux rate P mr m d (rem + 1) i b =
      (if i = m then
        { payment_number := i
          due_date := addMonths d i
          amount_due := round2 ((stepBalance rate P mr b + stepPrincipal rate P mr b) +
            stepInterest rate mr b)
          principal := round2 (stepBalance rate P mr b + stepPrincipal rate P mr b)
          interest := round2 (stepInterest rate mr b)
          balance := 0 }
      else
        { payment_number := i
          due_date := addMonths d i
          amount_due := round2 P
          principal := round2 (stepPrincipal rate P mr b)
          interest := round2 (stepInterest rate mr b)
          balance := round2 (stepBalance rate P mr b) }) ::
      scheduleAux rate P mr m d rem (i + 1) (stepBalance rate P mr b) := by
  by_cases h : i = m <;> simp [scheduleAux, h]

theorem exactScheduleAux_succ (rate P mr : ℚ) (m : ℕ) (d : ℤ) (rem i : ℕ) (b : ℚ) :
    exactScheduleAux rate P mr m d (rem + 1) i b =
      (if i = m then
        { payment_number := i
          due_date := addMonths d i
          amount_due := (stepBalance rate P mr b + stepPrincipal rate P mr b) +
            stepInterest rate mr b
          principal := stepBalance rate P mr b + stepPrincipal rate P mr b
          interest := stepInterest rate mr b
          balance := 0 }
      else
        { payment_number := i
          due_date := addMonths d i
          amount_due := P
          principal := stepPrincipal rate P mr b
          interest := stepInterest rate mr b
          balance := stepBalance rate P mr b }) ::
      exactScheduleAux rate P mr m d rem (i + 1) (stepBalance rate P mr b) := by
  by_cases h : i = m <;> simp [exactScheduleAux, h]

/-! ## The loop invariant holds for valid loan terms -/

theorem steady_zero_rate (F : ℚ) (m : ℕ) (hF : 0 ≤ F) (mr : ℚ) :
    ∀ rem, rem ≤ m → steady 0 (F / m) mr ((rem : ℚ) * (F / m)) rem := by
  have hP : 0 ≤ F / (m : ℚ) := div_nonneg hF (Nat.cast_nonneg m)
  intro rem
  induction rem with
  | zero => intro _; trivial
  | succ k ih =>
    intro hk
    have hkq : 0 ≤ (k : ℚ) * (F / m) := mul_nonneg (Nat.cast_nonneg k) hP
    have hb : ((k + 1 : ℕ) : ℚ) * (F / m) - F / m = (k : ℚ) * (F / m) := by
      push_cast; ring
    refine ⟨?_, ?_, ?_⟩
    · rw [stepPrincipal_zero_rate]; exact hP
    · rw [stepPrincipal_zero_rate]; linarith [hb]
    · rw [stepPrincipal_zero_rate, hb]
      exact ih (Nat.le_of_succ_le hk)

theorem steady_pos_rate (F rate mr : ℚ) (m : ℕ) (hF : 0 < F) (hmr : 0 < mr)
    (hrate : rate ≠ 0) (hm : m ≠ 0) :
    ∀ rem, rem ≤ m →
      steady rate (F * (mr * (1 + mr) ^ m / ((1 + mr) ^ m - 1))) mr
        (F * ((1 + mr) ^ m - (1 + mr) ^ (m - rem)) / ((1 + mr) ^ m - 1)) rem := by
  have hq1 : (1 : ℚ) < 1 + mr := by linarith
  have hq0 : (0 : ℚ) < 1 + mr := by linarith
  have hD : (0 : ℚ) < (1 + mr) ^ m - 1 := by
    have := one_lt_pow₀ hq1 hm; linarith
  have hDne : (1 + mr) ^ m - 1 ≠ 0 := ne_of_gt hD
  intro rem
  induction rem with
  | zero => intro _; trivial
  | succ k ih =>
    intro hk
    have hk' : k ≤ m := Nat.le_of_succ_le hk
    have hmk : m - k = (m - (k + 1)) + 1 := by omega
    have hjm : (m - (k + 1)) + 1 ≤ m := by omega
    have hpow_j : (1 + mr) ^ (m - (k + 1)) ≤ (1 + mr) ^ m :=
      pow_le_pow_right₀ hq1.le (by omega)
    have hpow_j1 : (1 + mr) ^ ((m - (k + 1)) + 1) ≤ (1 + mr) ^ m :=
      pow_le_pow_right₀ hq1.le hjm
    have hqj : (0 : ℚ) < (1 + mr) ^ (m - (k + 1)) := pow_pos hq0 _
    have hsp : stepPrincipal rate (F * (mr * (1 + mr) ^ m / ((1 + mr) ^ m - 1))) mr
        (F * ((1 + mr) ^ m - (1 + mr) ^ (m - (k + 1))) / ((1 + mr) ^ m - 1)) =
        F * mr * (1 + mr) ^ (m - (k + 1)) / ((1 + mr) ^ m - 1) := by
      rw [stepPrincipal, stepInterest_of_ne hrate]
      field_simp
      ring
    refine ⟨?_, ?_, ?_⟩
    · rw [hsp]; positivity
    · rw [hsp, div_le_div_iff_of_pos_right hD]
      have hstep : F * ((1 + mr) ^ m - (1 + mr) ^ (m - (k + 1))) - F * mr *
          (1 + mr) ^ (m - (k + 1)) =
          F * ((1 + mr) ^ m - (1 + mr) ^ ((m - (k + 1)) + 1)) := by
        rw [pow_succ]; ring
      nlinarith [mul_nonneg hF.le (sub_nonneg.mpr hpow_j1)]
    · rw [hsp]
      have harg : F * ((1 + mr) ^ m - (1 + mr) ^ (m - (k + 1))) / ((1 + mr) ^ m - 1) -
          F * mr * (1 + mr) ^ (m - (k + 1)) / ((1 + mr) ^ m - 1) =
          F * ((1 + mr) ^ m - (1 + mr) ^ (m - k)) / ((1 + mr) ^ m - 1) := by
        rw [hmk, pow_succ]
        field_simp
        ring
      rw [harg]
      exact ih hk'

theorem steady_full (F rate : ℚ) (m : ℕ) (hF : 0 < F) (hr : 0 ≤ rate) (hm : m ≠ 0) :
    steady rate (calculateMonthlyPayment F rate m) (rate / 100 / 12) F m := by
  have hnot : ¬(F ≤ 0 ∨ m = 0) := by push_neg; exact ⟨hF, hm⟩
  rcases eq_or_lt_of_le hr with h0 | hpos
  · have hrate : rate = 0 := h0.symm
    subst hrate
    have hP : calculateMonthlyPayment F 0 m = F / m := by
      unfold calculateMonthlyPayment
      rw [if_neg hnot, if_pos rfl]
    rw [hP]
    have hmq : ((m : ℕ) : ℚ) ≠ 0 := Nat.cast_ne_zero.mpr hm
    have := steady_zero_rate F m hF.le (0 / 100 / 12) m le_rfl
    have hcast : ((m : ℕ) : ℚ) * (F / m) = F := by field_simp
    rwa [hcast] at this
  · have hrne : rate ≠ 0 := ne_of_gt hpos
    have hmr : 0 < rate / 100 / 12 := by positivity
    have hP : calculateMonthlyPayment F rate m =
        F * (rate / 100 / 12 * (1 + rate / 100 / 12) ^ m /
          ((1 + rate / 100 / 12) ^ m - 1)) := by
      unfold calculateMonthlyPayment
      rw [if_neg hnot, if_neg hrne]
    rw [hP]
    have := steady_pos_rate F rate (rate / 100 / 12) m hF hmr hrne hm m le_rfl
    rw [Nat.sub_self, pow_zero] at this
    have hq1 : (1 : ℚ) < 1 + rate / 100 / 12 := by linarith
    have hDne : (1 + rate / 100 / 12) ^ m - 1 ≠ 0 := by
      have := one_lt_pow₀ hq1 hm; linarith
    rwa [mul_div_cancel_right₀ F hDne] at this

/-! ## Consequences of the loop invariant -/

theorem exactScheduleAux_sum_principal (rate P mr : ℚ) (m : ℕ) (d : ℤ) :
    ∀ rem i b, i + rem = m + 1 → 1 ≤ rem → steady rate P mr b rem →
      ((exactScheduleAux rate P mr m d rem i b).map AmortizationEntry.principal).sum = b := by
  intro rem
  induction rem with
  | zero => intro i b _ h2 _; exact absurd h2 (by omega)
  | succ k ih =>
    intro i b hsum _ hst
    obtain ⟨h1, h2, h3⟩ := hst
    have hmax : stepBalance rate P mr b = b - stepPrincipal rate P mr b :=
      max_eq_right (by linarith)
    rw [exactScheduleAux_succ]
    cases k with
    | zero =>
      have him : i = m := by omega
      rw [if_pos him]
      simp [exactScheduleAux, hmax]
    | succ k' =>
      have him : i ≠ m := by omega
      rw [if_neg him, List.map_cons, List.sum_cons,
        ih (i + 1) (stepBalance rate P mr b) (by omega) (by omega) (hmax ▸ h3)]
      rw [hmax]
      ring

theorem scheduleAux_chain_balance (rate P mr : ℚ) (m : ℕ) (d : ℤ) :
    ∀ rem i b, i + rem = m + 1 → steady rate P mr b rem →
      List.Chain' (fun a c => c.balance ≤ a.balance) (scheduleAux rate P mr m d rem i b) := by
  intro rem
  induction rem with
  | zero => intro i b _ _; exact List.chain'_nil
  | succ k ih =>
    intro i b hsum hst
    obtain ⟨h1, h2, h3⟩ := hst
    have hmax : stepBalance rate P mr b = b - stepPrincipal rate P mr b :=
      max_eq_right (by linarith)
    rw [scheduleAux_succ, List.chain'_cons']
    refine ⟨?_, ih (i + 1) _ (by omega) (hmax ▸ h3)⟩
    intro y hy
    cases k with
    | zero => simp [scheduleAux] at hy
    | succ k' =>
      have him : i ≠ m := by omega
      rw [scheduleAux_succ] at hy
      simp only [List.head?_cons, Option.mem_def, Option.some.injEq] at hy
      subst hy
      rw [if_neg him]
      obtain ⟨h1', h2', _⟩ := hmax ▸ h3
      by_cases him2 : i + 1 = m
      · rw [if_pos him2]
        exact round2_nonneg (le_max_left 0 _)
      · rw [if_neg him2]
        have hmax2 : stepBalance rate P mr (stepBalance rate P mr b) =
            stepBalance rate P mr b - stepPrincipal rate P mr (stepBalance rate P mr b) :=
          max_eq_right (by linarith)
        exact round2_mono (by rw [hmax2]; linarith)

theorem scheduleAux_getLast_balance (rate P mr : ℚ) (m : ℕ) (d : ℤ) :
    ∀ rem i b, 1 ≤ rem → i + rem = m + 1 →
      ((scheduleAux rate P mr m d rem i b).map AmortizationEntry.balance).getLast? =
        some 0 := by
  intro rem
  induction rem with
  | zero => intro i b h1 _; exact absurd h1 (by omega)
  | succ k ih =>
    intro i b _ hsum
    cases k with
    | zero =>
      have him : i = m := by omega
      rw [scheduleAux_succ, if_pos him]
      simp [scheduleAux]
    | succ k' =>
      rw [scheduleAux_succ, List.map_cons]
      have hne : (scheduleAux rate P mr m d (k' + 1) (i + 1)
          (stepBalance rate P mr b)).map AmortizationEntry.balance ≠ [] := by
        intro hc
        rw [List.map_eq_nil_iff] at hc
        have := scheduleAux_length rate P mr m d (k' + 1) (i + 1) (stepBalance rate P mr b)
        rw [hc] at this
        simp at this
      obtain ⟨x, xs, hxs⟩ := List.exists_cons_of_ne_nil hne
      rw [hxs, List.getLast?_cons_cons, ← hxs]
      exact ih (i + 1) _ (by omega) (by omega)

theorem scheduleAux_zero_rate_entries (P mr : ℚ) (m : ℕ) (d : ℤ) :
    ∀ rem i b e, e ∈ scheduleAux 0 P mr m d rem i b →
      e.interest = 0 ∧ e.principal = e.amount_due := by
  intro rem
  induction rem with
  | zero => intro i b e he; simp [scheduleAux] at he
  | succ k ih =>
    intro i b e he
    rw [scheduleAux_succ] at he
    rcases List.mem_cons.mp he with hhead | htail
    · subst hhead
      by_cases him : i = m <;>
        simp [him, stepInterest_zero, stepPrincipal_zero_rate, round2_zero]
    · exact ih (i + 1) _ e htail

theorem exactScheduleAux_decomposition (rate P mr : ℚ) (m : ℕ) (d : ℤ) :
    ∀ rem i b e, e ∈ exactScheduleAux rate P mr m d rem i b →
      e.amount_due = e.principal + e.interest := by
  intro rem
  induction rem with
  | zero => intro i b e he; simp [exactScheduleAux] at he
  | succ k ih =>
    intro i b e he
    rw [exactScheduleAux_succ] at he
    rcases List.mem_cons.mp he with hhead | htail
    · subst hhead
      by_cases him : i = m <;> simp [him, stepPrincipal]
    · exact ih (i + 1) _ e htail

theorem scheduleAux_eq_map_round (rate P mr : ℚ) (m : ℕ) (d : ℤ) :
    ∀ rem i b, scheduleAux rate P mr m d rem i b =
      (exactScheduleAux rate P mr m d rem i b).map roundEntry := by
  intro rem
  induction rem with
  | zero => intro i b; rfl
  | succ k ih =>
    intro i b
    rw [scheduleAux_succ, exactScheduleAux_succ, List.map_cons, ih]
    congr 1
    by_cases him : i = m <;> simp [him, roundEntry, round2_zero]

/-! ## Claim theorems -/

/-- C2, counterexample: the claim says `generateAmortizationSchedule 0 5 60 d`
returns an empty sequence, but the loop has no guard on `financeAmount`, so it
returns 60 entries. -/
theorem claim2_counterexample : generateAmortizationSchedule 0 5 60 0 ≠ [] := by
  intro h
  have := generateAmortizationSchedule_length 0 5 60 0
  rw [h] at this
  simp at this

/-- C2 (amended): the schedule is empty exactly when `termMonths = 0`
(`financeAmount ≤ 0` does not yield an empty sequence); in particular
`generateAmortizationSchedule 1000 5 0 d = []`, and no error is raised
(the function is total). -/
theorem claim2_empty_iff :
    (∀ (F rate : ℚ) (m : ℕ) (d : ℤ), generateAmortizationSchedule F rate m d = [] ↔ m = 0) ∧
    generateAmortizationSchedule 1000 5 0 0 = [] := by
  constructor
  · intro F rate m d
    rw [← List.length_eq_zero, generateAmortizationSchedule_length]
  · rfl

/-- C6: `calculateMonthlyPayment` returns 0 when `principal ≤ 0` or
`months = 0`; returns `principal / months` (unrounded) when `annualRate = 0`;
and otherwise returns the annuity formula
`principal * [r(1+r)^months] / [(1+r)^months - 1]` with `r = annualRate/100/12`;
it is a total function (no exceptions). -/
theorem claim6_monthly_payment (p r : ℚ) (m : ℕ) :
    (p ≤ 0 ∨ m = 0 → calculateMonthlyPayment p r m = 0) ∧
    (0 < p → m ≠ 0 → r = 0 → calculateMonthlyPayment p r m = p / (m : ℚ)) ∧
    (0 < p → m ≠ 0 → r ≠ 0 → calculateMonthlyPayment p r m =
      p * ((r / 100 / 12 * (1 + r / 100 / 12) ^ m) / ((1 + r / 100 / 12) ^ m - 1))) := by
  refine ⟨fun h => ?_, fun hp hm hr => ?_, fun hp hm hr => ?_⟩ <;>
    unfold calculateMonthlyPayment
  · rw [if_pos h]
  · rw [if_neg (by push_neg; exact ⟨hp, hm⟩), if_pos hr]
  · rw [if_neg (by push_neg; exact ⟨hp, hm⟩), if_neg hr]

/-- C6, witness: concrete instances of each branch. -/
theorem claim6_monthly_payment_witness :
    calculateMonthlyPayment (-1) 5 10 = 0 ∧
    calculateMonthlyPayment 100 0 4 = 100 / ((4 : ℕ) : ℚ) ∧
    calculateMonthlyPayment 100 1200 1 =
      100 * ((1200 / 100 / 12 * (1 + 1200 / 100 / 12) ^ (1 : ℕ)) /
        ((1 + 1200 / 100 / 12) ^ (1 : ℕ) - 1)) :=
  ⟨(claim6_monthly_payment (-1) 5 10).1 (Or.inl (by norm_num)),
   (claim6_monthly_payment 100 0 4).2.1 (by norm_num) (by norm_num) rfl,
   (claim6_monthly_payment 100 1200 1).2.2 (by norm_num) (by norm_num) (by norm_num)⟩

theorem payoff_filter_map_congr {ps qs : List PaymentRecord}
    (h : List.Forall₂ (fun a b => a.status = b.status ∧ a.principal = b.principal) ps qs) :
    ps.map PaymentRecord.principal = qs.map PaymentRecord.principal ∧
    (ps.filter fun p => p.status == "paid").map PaymentRecord.principal =
      (qs.filter fun p => p.status == "paid").map PaymentRecord.principal := by
  induction h with
  | nil => exact ⟨rfl, rfl⟩
  | cons hab h ih =>
    obtain ⟨hs, hp⟩ := hab
    refine ⟨by simp [hp, ih.1], ?_⟩
    rw [List.filter_cons, List.filter_cons, hs]
    cases hpaid : (_ == "paid") <;> simp [hp, ih.2]

/-- C7: `calculatePayoffAmount` returns `round2(sum of all principal - sum of
principal of records with status 'paid')`, ignores `paid_amount` entirely, and
returns 350 on the spec's example records. -/
theorem claim7_payoff (ps : List PaymentRecord) :
    calculatePayoffAmount ps =
      round2 ((ps.map PaymentRecord.principal).sum -
        ((ps.filter fun p => p.status == "paid").map PaymentRecord.principal).sum) ∧
    calculatePayoffAmount
      [⟨"paid", 100, none⟩, ⟨"pending", 200, none⟩, ⟨"late", 150, none⟩] = 350 ∧
    (∀ qs : List PaymentRecord,
      List.Forall₂ (fun a b => a.status = b.status ∧ a.principal = b.principal) ps qs →
      calculatePayoffAmount ps = calculatePayoffAmount qs) := by
  have hval : ∀ l : List PaymentRecord,
      calculatePayoffAmount l =
        round2 ((l.map PaymentRecord.principal).sum -
          ((l.filter fun p => p.status == "paid").map PaymentRecord.principal).sum) := by
    intro l
    unfold calculatePayoffAmount
    rw [foldl_add_principal, foldl_add_principal, zero_add, zero_add]
  refine ⟨hval ps, ?_, fun qs h => ?_⟩
  · rw [hval]
    simp +decide [List.filter_cons]
    norm_num [round2, jsRound]
  rw [hval ps, hval qs, (payoff_filter_map_congr h).1, (payoff_filter_map_congr h).2]

/-- C7, witness: the payoff amount of the example records is unchanged when
their `paid_amount` fields are altered. -/
theorem claim7_payoff_witness :
    calculatePayoffAmount
      [⟨"paid", 100, none⟩, ⟨"pending", 200, none⟩, ⟨"late", 150, none⟩] =
    calculatePayoffAmount
      [⟨"paid", 100, some 100⟩, ⟨"pending", 200, some 5⟩, ⟨"late", 150, none⟩] :=
  (claim7_payoff _).2.2 _
    (List.Forall₂.cons ⟨rfl, rfl⟩ (List.Forall₂.cons ⟨rfl, rfl⟩
      (List.Forall₂.cons ⟨rfl, rfl⟩ List.Forall₂.nil)))

/-- C8: `calculateSaleDetails` returns all three fields rounded to 2 decimals,
with `finance_amount = round2 (max 0 (salePrice - downPayment))`,
`monthly_payment = round2` of the §4.2 payment, and
`total_payment = round2 (monthlyPayment * termMonths + downPayment)` (monthly
payment unrounded); for salePrice 10000, downPayment 2000, rate 9.9, term 60
the finance amount is 8000.00. -/
theorem claim8_sale_details (sp dp r : ℚ) (m : ℕ) :
    calculateSaleDetails ⟨sp, dp, r, m⟩ =
      { finance_amount := round2 (max 0 (sp - dp))
        monthly_payment := round2 (calculateMonthlyPayment (max 0 (sp - dp)) r m)
        total_payment :=
          round2 (calculateMonthlyPayment (max 0 (sp - dp)) r m * m + dp) } ∧
    (calculateSaleDetails ⟨10000, 2000, 99 / 10, 60⟩).finance_amount = 8000 := by
  refine ⟨rfl, ?_⟩
  show round2 (calculateFinanceAmount 10000 2000) = 8000
  norm_num [calculateFinanceAmount, round2, jsRound]

/-- C9: `generateAmortizationSchedule` always returns exactly `termMonths`
entries whatever the finance amount; `financeAmount = 0` with `termMonths = 60`
produces 60 all-zero entries rather than an empty list, and only
`termMonths = 0` yields an empty list. -/
theorem claim9_length_no_guard :
    (∀ (F rate : ℚ) (m : ℕ) (d : ℤ), (generateAmortizationSchedule F rate m d).length = m) ∧
    ((generateAmortizationSchedule 0 5 60 0).map fun e =>
      (e.amount_due, e.principal, e.interest, e.balance)) =
        List.replicate 60 ((0 : ℚ), (0 : ℚ), (0 : ℚ), (0 : ℚ)) ∧
    (∀ (F rate : ℚ) (m : ℕ) (d : ℤ), generateAmortizationSchedule F rate m d = [] ↔ m = 0) := by
  refine ⟨generateAmortizationSchedule_length, ?_, fun F rate m d => ?_⟩
  · have h0 : calculateMonthlyPayment 0 5 60 = 0 :=
      calculateMonthlyPayment_of_nonpos le_rfl 5 60
    unfold generateAmortizationSchedule
    rw [h0]
    exact scheduleAux_zero_balance 5 (5 / 100 / 12) 60 0 60 1
  · rw [← List.length_eq_zero, generateAmortizationSchedule_length]

/-- C1, counterexample: at `financeAmount = 0.01`, `rate = 0`, `termMonths = 2`
both stored principals round 0.005 up to 0.01, so the stored sum is 0.02 while
`round2 0.01 = 0.01`. -/
theorem claim1_counterexample :
    ((generateAmortizationSchedule (1 / 100) 0 2 0).map AmortizationEntry.principal).sum ≠
      round2 (1 / 100) := by
  norm_num [generateAmortizationSchedule, scheduleAux, calculateMonthlyPayment,
    stepInterest, stepPrincipal, stepBalance, round2, jsRound, max_def]

/-- C1 (amended): for `financeAmount > 0`, `annualRatePercent ≥ 0` and positive
`termMonths`, the sum of the pre-rounding principal portions equals
`financeAmount` exactly, and the stored schedule is the entry-wise 2-decimal
rounding of those portions; the sum of the stored rounded principals can
differ from `round2 financeAmount` by accumulated per-entry rounding. -/
theorem claim1_sum_principal (F rate : ℚ) (m : ℕ) (d : ℤ)
    (hF : 0 < F) (hr : 0 ≤ rate) (hm : 1 ≤ m) :
    ((exactSchedule F rate m d).map AmortizationEntry.principal).sum = F ∧
    generateAmortizationSchedule F rate m d = (exactSchedule F rate m d).map roundEntry :=
  ⟨exactScheduleAux_sum_principal rate _ _ m d m 1 F (by omega) hm
      (steady_full F rate m hF hr (by omega)),
    scheduleAux_eq_map_round rate _ _ m d m 1 F⟩

/-- C1, witness: the amended claim at a concrete loan. -/
theorem claim1_sum_principal_witness :
    ((exactSchedule 1000 12 3 0).map AmortizationEntry.principal).sum = 1000 ∧
    generateAmortizationSchedule 1000 12 3 0 =
      (exactSchedule 1000 12 3 0).map roundEntry :=
  claim1_sum_principal 1000 12 3 0 (by norm_num) (by norm_num) (by norm_num)

/-- C3, counterexample: at `financeAmount = 0.03`, `termMonths = 2`, zero rate,
both stored principals round 0.015 up to 0.02, so the stored sum is 0.04, not
0.03. -/
theorem claim3_counterexample :
    ((generateAmortizationSchedule (3 / 100) 0 2 0).map AmortizationEntry.principal).sum ≠
      (3 / 100 : ℚ) := by
  norm_num [generateAmortizationSchedule, scheduleAux, calculateMonthlyPayment,
    stepInterest, stepPrincipal, stepBalance, round2, jsRound, max_def]

/-- C3 (amended): with `annualRatePercent = 0`, every entry has
`interest = 0` and `principal = amount_due` (stored values), and the sum of
the pre-rounding principal portions equals `financeAmount` exactly; the sum
of the stored rounded principals can differ from `financeAmount`. -/
theorem claim3_zero_rate (F : ℚ) (m : ℕ) (d : ℤ) (hF : 0 < F) (hm : 1 ≤ m) :
    (∀ e ∈ generateAmortizationSchedule F 0 m d,
      e.interest = 0 ∧ e.principal = e.amount_due) ∧
    ((exactSchedule F 0 m d).map AmortizationEntry.principal).sum = F :=
  ⟨fun e he => scheduleAux_zero_rate_entries _ _ m d m 1 F e he,
    exactScheduleAux_sum_principal 0 _ _ m d m 1 F (by omega) hm
      (steady_full F 0 m hF le_rfl (by omega))⟩

/-- C3, witness: the amended claim at a concrete zero-rate loan. -/
theorem claim3_zero_rate_witness :
    (∀ e ∈ generateAmortizationSchedule 100 0 4 0,
      e.interest = 0 ∧ e.principal = e.amount_due) ∧
    ((exactSchedule 100 0 4 0).map AmortizationEntry.principal).sum = 100 :=
  claim3_zero_rate 100 4 0 (by norm_num) (by norm_num)

/-- C4, counterexample: at `financeAmount = 0.005`, `rate = 1200`,
`termMonths = 1` the single entry stores `amount_due = 0.01`,
`principal = 0.01`, `interest = 0.01`, and
`round2 (principal + interest) = 0.02 ≠ 0.01`. -/
theorem claim4_counterexample :
    ∃ e ∈ generateAmortizationSchedule (1 / 200) 1200 1 0,
      e.amount_due ≠ round2 (e.principal + e.interest) := by
  refine ⟨⟨1, 1, 1 / 100, 1 / 100, 1 / 100, 0⟩, ?_, ?_⟩
  · norm_num [generateAmortizationSchedule, scheduleAux, calculateMonthlyPayment,
      stepInterest, stepPrincipal, stepBalance, round2, jsRound, max_def, addMonths]
  · norm_num [round2, jsRound]

/-- C4 (amended): every stored `amount_due` equals `round2` of the sum of the
corresponding PRE-rounding principal and interest (the decomposition
`amountDue = principal + interest` holds exactly before rounding); with the
stored rounded principal and interest the identity can fail. -/
theorem claim4_decomposition (F rate : ℚ) (m : ℕ) (d : ℤ) :
    List.Forall₂ (fun e ex => e.amount_due = round2 (ex.principal + ex.interest))
      (generateAmortizationSchedule F rate m d) (exactSchedule F rate m d) := by
  have hmap : generateAmortizationSchedule F rate m d =
      (exactSchedule F rate m d).map roundEntry :=
    scheduleAux_eq_map_round rate _ _ m d m 1 F
  rw [hmap, List.forall₂_map_left_iff, List.forall₂_same]
  intro ex hex
  have hdec : ex.amount_due = ex.principal + ex.interest :=
    exactScheduleAux_decomposition rate _ _ m d m 1 F ex hex
  show round2 ex.amount_due = round2 (ex.principal + ex.interest)
  rw [hdec]

/-- C5: for `financeAmount > 0`, `annualRatePercent ≥ 0` and positive
`termMonths`, the stored balances are non-increasing across successive
entries, and the last entry's balance is exactly 0. -/
theorem claim5_balance_monotone (F rate : ℚ) (m : ℕ) (d : ℤ)
    (hF : 0 < F) (hr : 0 ≤ rate) (hm : 1 ≤ m) :
    List.Chain' (fun a c => c.balance ≤ a.balance)
      (generateAmortizationSchedule F rate m d) ∧
    ((generateAmortizationSchedule F rate m d).map AmortizationEntry.balance).getLast? =
      some 0 :=
  ⟨scheduleAux_chain_balance rate _ _ m d m 1 F (by omega)
      (steady_full F rate m hF hr (by omega)),
    scheduleAux_getLast_balance rate _ _ m d m 1 F hm (by omega)⟩

/-- C5, witness: the claim at a concrete loan. -/
theorem claim5_balance_monotone_witness :
    List.Chain' (fun a c => c.balance ≤ a.balance)
      (generateAmortizationSchedule 1000 12 3 0) ∧
    ((generateAmortizationSchedule 1000 12 3 0).map AmortizationEntry.balance).getLast? =
      some 0 :=
  claim5_balance_monotone 1000 12 3 0 (by norm_num) (by norm_num) (by norm_num)

/-- C10: `calculateRemainingBalance` returns exactly 0 whenever
`paymentsMade ≥ totalMonths`, and its result is always nonnegative. -/
theorem claim10_remaining_balance (op r : ℚ) (tm pm : ℕ) :
    (tm ≤ pm → calculateRemainingBalance op r tm pm = 0) ∧
    0 ≤ calculateRemainingBalance op r tm pm := by
  constructor
  · intro h
    unfold calculateRemainingBalance
    rw [if_pos h]
  · unfold calculateRemainingBalance
    split
    · exact le_refl 0
    · exact le_max_left 0 _

/-- C10, witness: concrete instances of both conjuncts. -/
theorem claim10_remaining_balance_witness :
    calculateRemainingBalance 1000 5 10 12 = 0 ∧
    0 ≤ calculateRemainingBalance 1000 5 10 3 :=
  ⟨(claim10_remaining_balance 1000 5 10 12).1 (by norm_num),
   (claim10_remaining_balance 1000 5 10 3).2⟩

end LandProject
